import Mathlib

/-!
Verification development for the `local-nc-local-thumbnailer` crawler
(`index.js`).  The program crawls a WebDAV tree, finds video files lacking a
server-side thumbnail, and generates one through a three-stage fallback
pipeline, gated by three on-disk caches and scheduled on two bounded job
queues.  The definitions below are a shallow embedding of the source:
external effects (WebDAV stat/listing, existence checks, subprocess probes,
downloads, uploads) are supplied by oracles, and the observable calls the
program issues are recorded in explicit event traces.
-/

namespace Thumbnailer

/-! ### Timestamp selection policy (`generateThumbnail`, index.js lines 451-460)

The source computes the screenshot timestamp from the probed duration with a
strict-greater-than cascade:

    if (duration > 50) time = 50;
    else if (duration > 40) time = 40;
    else if (duration > 30) time = 30;
    else if (duration > 20) time = 20;
    else if (duration > 10) time = 10;
    else if (duration > 5) time = 5;
    else time = Math.max(0, duration * 0.2);

Durations are JavaScript numbers; we model them as rationals. -/

/-- The timestamp cascade of `generateThumbnail` (index.js 453-460). -/
def thumbTime (duration : ℚ) : ℚ :=
  if duration > 50 then 50
  else if duration > 40 then 40
  else if duration > 30 then 30
  else if duration > 20 then 20
  else if duration > 10 then 10
  else if duration > 5 then 5
  else max 0 (duration * (1/5))

/-- The fixed threshold list of the spec's timestamp policy, descending. -/
def thresholds : List ℚ := [50, 40, 30, 20, 10, 5]

/-- The timestamp policy as the spec words it ("largest threshold `t` with
`t ≤ D`; if `D ≤ 5`, `max(0, 0.2×D)`"), for comparison with `thumbTime`. -/
def specTimeLE (D : ℚ) : ℚ :=
  if D ≤ 5 then max 0 (D * (1/5))
  else ((thresholds.filter (fun t => t ≤ D)).headD 0)

/-- The timestamp policy amended to the strict comparison the source makes:
largest threshold `t` with `t < D`; if `D ≤ 5`, `max(0, 0.2×D)`. -/
def specTimeLT (D : ℚ) : ℚ :=
  if D ≤ 5 then max 0 (D * (1/5))
  else ((thresholds.filter (fun t => t < D)).headD 0)

/-! ### Two-lane job scheduler (`JobQueue`, index.js lines 121-154)

`class JobQueue` keeps a `concurrency` limit, a `running` counter and a FIFO
`queue` array.  `add(fn)` pushes a job and triggers `process()`, which starts
the front job only while `running < concurrency`; the `finally` block
decrements `running` only after the job's function has fully settled, so an
I/O job that is awaiting a nested `ffmpegQueue.add` still occupies its slot.
The program builds `ioQueue = new JobQueue(IO_CONCURRENCY || 2)` and
`ffmpegQueue = new JobQueue(1)`.  We model the two queues and the job
lifecycle as a small-step transition system: jobs are identified by numbers,
I/O jobs may spawn media jobs while running (the nested `ffmpegQueue.add`
calls inside the I/O job of `processFolder`), and an I/O job can only finish
once all media jobs it spawned are done (the `await`s). -/

/-- The observable fields of a `JobQueue` instance (index.js 122-125). -/
structure JobQueue where
  concurrency : Nat
  running : Nat
  queue : List Nat
  deriving DecidableEq

/-- Joint state of the two queues plus bookkeeping of every job's lifecycle:
`ioSubmitted`/`ioStarted` record submission and start order (oldest first),
`ioRun`/`ioDone` the currently running and completed I/O jobs, and likewise
for the media lane; `medParent` maps each media job to the I/O job that
spawned it. -/
structure Sched where
  io : JobQueue
  media : JobQueue
  ioSubmitted : List Nat
  ioStarted : List Nat
  ioRun : List Nat
  ioDone : List Nat
  medSubmitted : List Nat
  medStarted : List Nat
  medRun : List Nat
  medDone : List Nat
  medParent : List (Nat × Nat)
  deriving DecidableEq

/-- Initial scheduler state: `ioQueue = new JobQueue(ioLimit)` and
`ffmpegQueue = new JobQueue(1)` (index.js 153-154), no jobs anywhere. -/
def Sched.start (ioLimit : Nat) : Sched :=
  { io := ⟨ioLimit, 0, []⟩, media := ⟨1, 0, []⟩,
    ioSubmitted := [], ioStarted := [], ioRun := [], ioDone := [],
    medSubmitted := [], medStarted := [], medRun := [], medDone := [],
    medParent := [] }

/-- One scheduler step.  `ioSubmit` is `ioQueue.add` (push to the FIFO array,
index.js 128-133); `ioStart` is the body of `process()` up to its first
`await` (guard `running < concurrency`, shift the front job, increment
`running`, index.js 135-139, atomic in the single-threaded runtime);
`mediaSpawn` is a running I/O job calling `ffmpegQueue.add`; `ioFinish` is
the `finally` block (index.js 146-149), reachable only after every nested
media-queue submission of that job has been awaited. -/
inductive SchedStep : Sched → Sched → Prop where
  | ioSubmit (s : Sched) (j : Nat) (hfresh : j ∉ s.ioSubmitted) :
      SchedStep s { s with io := { s.io with queue := s.io.queue ++ [j] },
                           ioSubmitted := s.ioSubmitted ++ [j] }
  | ioStart (s : Sched) (j : Nat) (rest : List Nat)
      (hq : s.io.queue = j :: rest) (hcap : s.io.running < s.io.concurrency) :
      SchedStep s { s with io := { s.io with queue := rest, running := s.io.running + 1 },
                           ioStarted := s.ioStarted ++ [j], ioRun := j :: s.ioRun }
  | mediaSpawn (s : Sched) (j m : Nat) (hj : j ∈ s.ioRun) (hfresh : m ∉ s.medSubmitted) :
      SchedStep s { s with media := { s.media with queue := s.media.queue ++ [m] },
                           medSubmitted := s.medSubmitted ++ [m],
                           medParent := (m, j) :: s.medParent }
  | mediaStart (s : Sched) (m : Nat) (rest : List Nat)
      (hq : s.media.queue = m :: rest) (hcap : s.media.running < s.media.concurrency) :
      SchedStep s { s with media := { s.media with queue := rest, running := s.media.running + 1 },
                           medStarted := s.medStarted ++ [m], medRun := m :: s.medRun }
  | mediaFinish (s : Sched) (m : Nat) (hm : m ∈ s.medRun) :
      SchedStep s { s with media := { s.media with running := s.media.running - 1 },
                           medRun := s.medRun.erase m, medDone := m :: s.medDone }
  | ioFinish (s : Sched) (j : Nat) (hj : j ∈ s.ioRun)
      (hchild : ∀ m, (m, j) ∈ s.medParent → m ∈ s.medDone) :
      SchedStep s { s with io := { s.io with running := s.io.running - 1 },
                           ioRun := s.ioRun.erase j, ioDone := j :: s.ioDone }

/-- States reachable from the initial two-queue configuration. -/
def Reachable (ioLimit : Nat) (s : Sched) : Prop :=
  Relation.ReflTransGen SchedStep (Sched.start ioLimit) s

/-- Scheduler invariant: `running` counts the running jobs of each lane and
never exceeds the lane's concurrency limit; the media lane's limit is the
constant 1; starts happen in exactly submission order (`started ++ pending`
is the submission sequence); and every submitted job is pending, running or
done. -/
structure SchedInv (s : Sched) : Prop where
  ioRunCount : s.io.running = s.ioRun.length
  medRunCount : s.media.running = s.medRun.length
  ioCap : s.io.running ≤ s.io.concurrency
  medCap : s.media.running ≤ s.media.concurrency
  medLimit : s.media.concurrency = 1
  ioFifo : s.ioStarted ++ s.io.queue = s.ioSubmitted
  medFifo : s.medStarted ++ s.media.queue = s.medSubmitted
  ioPart : ∀ j ∈ s.ioSubmitted, j ∈ s.io.queue ∨ j ∈ s.ioRun ∨ j ∈ s.ioDone
  medPart : ∀ m ∈ s.medSubmitted, m ∈ s.media.queue ∨ m ∈ s.medRun ∨ m ∈ s.medDone

/-! ### Media fetch pipeline (`processVideo`, index.js lines 344-413)

The three stages are modelled with a per-candidate oracle supplying the
outcome of every external operation (subprocess probes, downloads, frame
extraction).  Probe output structure is kept faithful to stage 1's parsing:
`metadata.format` may be absent (the code throws "No format detected"), and
when present its `duration` field may be absent (the code computes
`parseFloat(metadata.format.duration || 0)`, i.e. duration `0`).  A stage
that fails leaves no thumbnail file behind, so the `fs.existsSync(localThumb)`
guard of the execution block (index.js 491) is modelled as "the pipeline
result is success". -/

/-- Outcome of the stage-1 `ffprobe` spawn against the remote URL:
subprocess failure / JSON parse failure, or parsed output with an optional
`format` object holding an optional `duration`. -/
inductive Stage1Probe where
  | procFail
  | parsed (format : Option (Option ℚ))
  deriving DecidableEq

/-- Per-candidate oracle for every external effect of the pipeline. -/
structure PVOracle where
  stage1 : Stage1Probe
  stage1Extract : Bool
  stage2Download : Bool
  stage2Probe : Option ℚ
  stage2Extract : Bool
  stage3Download : Bool
  stage3Probe : Option ℚ
  stage3Extract : Bool
  deriving DecidableEq

/-- Observable pipeline operations: remote `ffprobe`, remote frame extraction
at a timestamp, ranged 100 MiB download, local `ffprobe`, full download,
local frame extraction at a timestamp. -/
inductive PVEvent where
  | remoteProbe
  | remoteExtract (t : ℚ)
  | rangedDownload
  | localProbe
  | fullDownload
  | localExtract (t : ℚ)
  deriving DecidableEq

/-- Result of `processVideo`: thumbnail generated, size-skip return, or a
thrown error reaching the caller's `catch`. -/
inductive PVResult where
  | success
  | sizeSkip
  | failure
  deriving DecidableEq

/-- The run statistics object (index.js 37-44). -/
structure Stats where
  uploaded : Nat
  failed : Nat
  skippedSize : Nat
  skippedSizeList : List (String × Nat)
  skippedExists : Nat
  skippedCache : Nat
  deriving DecidableEq

/-- Stage 1, remote stream (index.js 346-386): probe the remote URL on the
media queue; no `format` object throws; otherwise extract a frame remotely at
`thumbTime (duration || 0)`.  Returns success plus the operations issued. -/
def stage1 (o : PVOracle) : Bool × List PVEvent :=
  match o.stage1 with
  | .procFail => (false, [.remoteProbe])
  | .parsed none => (false, [.remoteProbe])
  | .parsed (some dopt) =>
      (o.stage1Extract, [.remoteProbe, .remoteExtract (thumbTime (dopt.getD 0))])

/-- Stage 2, partial download (index.js 388-399): ranged download of the
first 100 MiB, local probe, local extraction. -/
def stage2 (o : PVOracle) : Bool × List PVEvent :=
  if !o.stage2Download then (false, [.rangedDownload])
  else match o.stage2Probe with
    | none => (false, [.rangedDownload, .localProbe])
    | some dur =>
        (o.stage2Extract, [.rangedDownload, .localProbe, .localExtract (thumbTime dur)])

/-- Stage 3, full download (index.js 401-412): if the candidate's reported
size exceeds `MAX_SIZE_BYTES`, record a size-skip (increment
`stats.skippedSize`, push onto `stats.skippedSizeList`) and return without
downloading; otherwise download fully, probe and extract locally. -/
def stage3 (o : PVOracle) (relPath : String) (size maxSize : Nat) (st : Stats) :
    PVResult × Stats × List PVEvent :=
  if size > maxSize then
    (.sizeSkip,
     { st with skippedSize := st.skippedSize + 1,
               skippedSizeList := st.skippedSizeList ++ [(relPath, size)] }, [])
  else if !o.stage3Download then (.failure, st, [.fullDownload])
  else match o.stage3Probe with
    | none => (.failure, st, [.fullDownload, .localProbe])
    | some dur =>
      (if o.stage3Extract then .success else .failure, st,
       [.fullDownload, .localProbe, .localExtract (thumbTime dur)])

/-- The 3-stage process (index.js 344-413): each stage runs only if the
previous one failed; a stage's success short-circuits the rest. -/
def processVideo (o : PVOracle) (relPath : String) (size maxSize : Nat) (st : Stats) :
    PVResult × Stats × List PVEvent :=
  if (stage1 o).1 then (.success, st, (stage1 o).2)
  else if (stage2 o).1 then (.success, st, (stage1 o).2 ++ (stage2 o).2)
  else
    ((stage3 o relPath size maxSize st).1, (stage3 o relPath size maxSize st).2.1,
     (stage1 o).2 ++ (stage2 o).2 ++ (stage3 o relPath size maxSize st).2.2)

/-! ### Path helpers (index.js 85, 156-164, 302)

These mirror `path.extname(...).toLowerCase()`, `VIDEO_EXTS.includes` and
`getRelativePath`.  They are implemented over the character list of the
string so that they evaluate on concrete inputs. -/

/-- Split a character list at a separator, like JavaScript `split`. -/
def chSplit (sep : Char) : List Char → List (List Char)
  | [] => [[]]
  | c :: rest =>
    let r := chSplit sep rest
    if c = sep then [] :: r
    else match r with
      | [] => [[c]]
      | h :: t => (c :: h) :: t

/-- ASCII lower-casing of one character, as `toLowerCase` acts on the
extension strings involved here. -/
def chLower (c : Char) : Char :=
  if 'A' ≤ c ∧ c ≤ 'Z' then Char.ofNat (c.toNat + 32) else c

/-- `String.prototype.toLowerCase` restricted to ASCII. -/
def strLower (s : String) : String := ⟨s.data.map chLower⟩

/-- `String.prototype.startsWith`. -/
def strStartsWith (s t : String) : Bool := t.data.isPrefixOf s.data

/-- `String.prototype.substring(n)`: drop the first `n` characters. -/
def strDropLen (s : String) (n : Nat) : String := ⟨s.data.drop n⟩

/-- `path.extname`: the extension of the last path component, empty for
dot-less names and leading-dot-only names. -/
def extname (p : String) : String :=
  let base := ((chSplit '/' p.data).getLastD []).asString
  let parts := chSplit '.' base.data
  match parts with
  | [] => ""
  | [_] => ""
  | [[], _] => ""
  | _ => "." ++ (parts.getLastD []).asString

/-- The recognized video extensions (index.js 85). -/
def VIDEO_EXTS : List String := [".mp4", ".m4v", ".mov", ".avi", ".mkv", ".wmv"]

/-- `VIDEO_EXTS.includes(path.extname(f).toLowerCase())` (index.js 302-303). -/
def isVideoFile (filename : String) : Bool :=
  VIDEO_EXTS.contains (strLower (extname filename))

/-- `getRelativePath` (index.js 157-164): strip the DAV prefix and ensure a
leading slash. -/
def getRelativePath (davPrefix fullPath : String) : String :=
  let rel := if strStartsWith fullPath davPrefix then strDropLen fullPath davPrefix.data.length
             else fullPath
  if strStartsWith rel "/" then rel else "/" ++ rel

/-! ### Remote filesystem, configuration, walker state -/

/-- A node of the remote tree as the walker observes it: a directory carries
the result of `dav.stat` (`none` = the call fails) and of
`dav.getDirectoryContents` (`none` = the call fails); a file carries its
reported size. -/
inductive RTree where
  | dir (filename : String) (statResult : Option String) (listing : Option (List RTree))
  | file (filename : String) (size : Nat)

/-- Observable external calls of one run, in chronological order. -/
inductive Event where
  | statCall (p : String)
  | listCall (p : String)
  | discovered (p : String)
  | existsRequest (p : String)
  | batchRequest (ps : List String)
  | ioTask (p : String)
  | pipe (p : String) (e : PVEvent)
  deriving DecidableEq

/-- Run configuration and effect oracles: `force` is the `--force` flag,
`cooldownMs` is `COOLDOWN_MS`, `now` the wall clock (`Date.now()`),
`davPrefix` is `DAV_PATH_PREFIX`, `maxSizeBytes` is `MAX_SIZE_BYTES`,
`batchCap` is `capabilities.batch_exists`.  `existsOracle` resolves a
single `/exists` request (the `catch` of `checkRemoteExists` already folds a
network error into `false`); `batchOracle` resolves a `/batch_exists`
request (`none` = error or non-success response); `pvOracle` supplies each
candidate's pipeline outcomes and `uploadOk` each candidate's upload
outcome. -/
structure Config where
  force : Bool
  cooldownMs : Int
  now : Int
  davPrefix : String
  maxSizeBytes : Nat
  batchCap : Bool
  existsOracle : String → Bool
  batchOracle : List String → Option (List (String × Bool))
  pvOracle : String → PVOracle
  uploadOk : String → Bool

/-- Mutable state threaded through a run: the three caches
(`folderCache : path ↦ (ts, mtime)` as the insertion-ordered map,
`thumbCache`, `failCache`), the statistics and the event trace. -/
structure WState where
  folderCache : List (String × Int × String)
  thumbCache : List String
  failCache : List String
  stats : Stats
  trace : List Event
  deriving DecidableEq

/-- `folderCache.get` (a `Map` lookup). -/
def lookupFC (fc : List (String × Int × String)) (k : String) : Option (Int × String) :=
  (fc.find? (fun e => e.1 == k)).map (fun e => e.2)

/-- `folderCache.set`: replace the entry for `k` or append a new one. -/
def setFC (fc : List (String × Int × String)) (k : String) (v : Int × String) :
    List (String × Int × String) :=
  if fc.any (fun e => e.1 == k) then
    fc.map (fun e => if e.1 == k then (k, v) else e)
  else fc ++ [(k, v)]

/-- `remoteResults[relPath]`: object lookup with JavaScript's falsy default
for a missing key. -/
def lookupBool (rs : List (String × Bool)) (k : String) : Bool :=
  ((rs.find? (fun e => e.1 == k)).map (fun e => e.2)).getD false

/-- The folder-skip condition of index.js 276-281: not force mode, a cache
entry exists, its mtime equals the fresh `lastmod`, and the last scan is
within the cooldown window. -/
def cacheSkip (cfg : Config) (fc : List (String × Int × String)) (relDir lastmod : String) :
    Bool :=
  !cfg.force && (match lookupFC fc relDir with
    | some (ts, m) => m == lastmod && decide (cfg.now - ts < cfg.cooldownMs)
    | none => false)

/-- `getRelativePath(directory) || "/"` (index.js 264). -/
def relDirOf (cfg : Config) (p : String) : String :=
  let r := getRelativePath cfg.davPrefix p
  if r = "" then "/" else r

/-- `checkBatchRemoteExists` (index.js 232-248): without the batch
capability, one `checkRemoteExists` call per path, sequentially, issued
directly (no queue submission); with it, a single `/batch_exists` request
whose failure yields the empty map. -/
def checkBatchRemoteExists (cfg : Config) (relPaths : List String) :
    List (String × Bool) × List Event :=
  if !cfg.batchCap then
    (relPaths.map (fun p => (p, cfg.existsOracle p)),
     relPaths.map (fun p => Event.existsRequest p))
  else
    match cfg.batchOracle relPaths with
    | some results => (results, [.batchRequest relPaths])
    | none => ([], [.batchRequest relPaths])

/-- The execution block of one I/O job (index.js 488-504): run
`processVideo`; on success (the thumbnail file exists) upload it, and either
`markDone` + `uploaded++` or, if the upload throws, `markFailed` +
`failed++`; a pipeline throw is caught as `markFailed` + `failed++`; a
size-skip return updates nothing further. -/
def runJob (cfg : Config) (relPath : String) (size : Nat) (s : WState) : WState :=
  let r := processVideo (cfg.pvOracle relPath) relPath size cfg.maxSizeBytes s.stats
  let s1 : WState := { s with stats := r.2.1, trace := s.trace ++ r.2.2.map (Event.pipe relPath) }
  match r.1 with
  | .success =>
      if cfg.uploadOk relPath then
        { s1 with thumbCache := s1.thumbCache ++ [relPath],
                  stats := { s1.stats with uploaded := s1.stats.uploaded + 1 } }
      else
        { s1 with failCache := s1.failCache ++ [relPath],
                  stats := { s1.stats with failed := s1.stats.failed + 1 } }
  | .sizeSkip => s1
  | .failure =>
      { s1 with failCache := s1.failCache ++ [relPath],
                stats := { s1.stats with failed := s1.stats.failed + 1 } }

/-- The per-candidate body of the batch phase loop (index.js 327-505): with
force off and a confirmed remote thumbnail, `markDone` + `skippedExists++`;
otherwise an `ioQueue.add` submission whose job runs the pipeline. -/
def existsOrJob (cfg : Config) (br : List (String × Bool)) (acc : WState) (v : String × Nat) :
    WState :=
  let relPath := getRelativePath cfg.davPrefix v.1
  if !cfg.force && lookupBool br relPath then
    { acc with thumbCache := acc.thumbCache ++ [relPath],
               stats := { acc.stats with skippedExists := acc.stats.skippedExists + 1 } }
  else
    runJob cfg relPath v.2 { acc with trace := acc.trace ++ [.ioTask relPath] }

/-- The second per-directory phase (index.js 322-507): one batch existence
check for the directory's surviving candidates, then per candidate either an
exists-skip (`markDone` + `skippedExists++`, force off) or an I/O-queue job
submission running the pipeline. -/
def handleVideos (cfg : Config) (vids : List (String × Nat)) (s : WState) : WState :=
  let pathsToCheck := vids.map (fun v => getRelativePath cfg.davPrefix v.1)
  let br := checkBatchRemoteExists cfg pathsToCheck
  let s1 : WState := { s with trace := s.trace ++ br.2 }
  vids.foldl (existsOrJob cfg br.1) s1

mutual

/-- `processFolder` (index.js 263-511): stat the directory (failure aborts
the subtree), apply the cache-skip rule, list the contents (failure aborts
the subtree), classify the entries recursively, run the batch phase when
candidates remain, and finally write the folder-cache entry. -/
def processFolder (cfg : Config) (t : RTree) (s : WState) : Bool × WState :=
  match t with
  | .file _ _ => (false, s)
  | .dir fn statR listing =>
    let relDir := relDirOf cfg fn
    match statR with
    | none => (false, { s with trace := s.trace ++ [.statCall relDir] })
    | some lastmod =>
      let s1 : WState := { s with trace := s.trace ++ [.statCall relDir] }
      if cacheSkip cfg s1.folderCache relDir lastmod then (false, s1)
      else
        match listing with
        | none => (false, { s1 with trace := s1.trace ++ [.listCall relDir] })
        | some items =>
          let s2 : WState := { s1 with trace := s1.trace ++ [.listCall relDir] }
          let c := classifyItems cfg items s2
          let s4 := if c.2.1.isEmpty then c.2.2 else handleVideos cfg c.2.1 c.2.2
          (c.1, { s4 with folderCache := setFC s4.folderCache relDir (cfg.now, lastmod) })

/-- The per-entry loop of `processFolder` (index.js 296-320): recurse into
subdirectories, classify files by extension, and in non-force mode drop
candidates found in the thumb or fail cache (`skippedCache++`); survivors
are collected as `videosToProcess` in listing order. -/
def classifyItems (cfg : Config) (items : List RTree) (s : WState) :
    Bool × List (String × Nat) × WState :=
  match items with
  | [] => (false, [], s)
  | .dir fn st l :: rest =>
    let r := processFolder cfg (.dir fn st l) s
    let c := classifyItems cfg rest r.2
    (r.1 || c.1, c.2.1, c.2.2)
  | .file fn sz :: rest =>
    if isVideoFile fn then
      let relPath := getRelativePath cfg.davPrefix fn
      let s1 : WState := { s with trace := s.trace ++ [.discovered relPath] }
      if !cfg.force && (s1.thumbCache.contains relPath || s1.failCache.contains relPath) then
        let s2 : WState :=
          { s1 with stats := { s1.stats with skippedCache := s1.stats.skippedCache + 1 } }
        let c := classifyItems cfg rest s2
        (true, c.2.1, c.2.2)
      else
        let c := classifyItems cfg rest s1
        (true, (fn, sz) :: c.2.1, c.2.2)
    else
      classifyItems cfg rest s

end

mutual

/-- Spec-side predicate for the walker's contract: the node is, or the
subtree below it contains, a file with a recognized video extension. -/
def subtreeHasVideo : RTree → Bool
  | .file fn _ => isVideoFile fn
  | .dir _ _ none => false
  | .dir _ _ (some items) => listHasVideo items

/-- `subtreeHasVideo` over a list of children. -/
def listHasVideo : List RTree → Bool
  | [] => false
  | it :: rest => subtreeHasVideo it || listHasVideo rest

end

mutual

/-- Every directory of the subtree has a successful stat and a successful
listing. -/
def allAccessible : RTree → Bool
  | .file _ _ => true
  | .dir _ _ none => false
  | .dir _ none _ => false
  | .dir _ (some _) (some items) => allAccessibleL items

/-- `allAccessible` over a list of children. -/
def allAccessibleL : List RTree → Bool
  | [] => true
  | it :: rest => allAccessible it && allAccessibleL rest

end

/-- Total of the five outcome counters. -/
def statsSum (st : Stats) : Nat :=
  st.uploaded + st.failed + st.skippedSize + st.skippedExists + st.skippedCache

/-- Number of discovered candidates recorded in a trace. -/
def countDiscovered (tr : List Event) : Nat :=
  tr.countP (fun e => match e with | .discovered _ => true | _ => false)

/-- Number of directory-listing calls for a given path in a trace. -/
def countListCalls (p : String) (tr : List Event) : Nat :=
  tr.countP (fun e => e == Event.listCall p)

/-- A concrete scheduler state: one I/O job submitted and waiting. -/
def wSched1 : Sched := { Sched.start 2 with io := ⟨2, 0, [0]⟩, ioSubmitted := [0] }

/-- A concrete scheduler state: that job started and running. -/
def wSched2 : Sched := { wSched1 with io := ⟨2, 1, []⟩, ioStarted := [0], ioRun := [0] }

/-- A concrete scheduler state: that job finished; both lanes are idle. -/
def wSched3 : Sched := { wSched2 with io := ⟨2, 0, []⟩, ioRun := [], ioDone := [0] }


/-- Number of I/O-queue submissions recorded in a trace. -/
def countIoTasks (tr : List Event) : Nat :=
  tr.countP (fun e => match e with | .ioTask _ => true | _ => false)

/-- Number of single-path existence requests recorded in a trace. -/
def countExistsRequests (tr : List Event) : Nat :=
  tr.countP (fun e => match e with | .existsRequest _ => true | _ => false)

/-- The all-zero statistics record. -/
def emptyStats : Stats := ⟨0, 0, 0, [], 0, 0⟩

/-- The empty walker state. -/
def emptyW : WState := ⟨[], [], [], emptyStats, []⟩

/-- An oracle on which every pipeline stage fails at its first operation. -/
def oracleFailAll : PVOracle := ⟨.procFail, false, false, none, false, false, none, false⟩

/-- An oracle whose stage-1 probe succeeds with a format object that has no
duration, and whose remote extraction succeeds. -/
def probeNoDuration : PVOracle := ⟨.parsed (some none), true, false, none, false, false, none, false⟩

/-- A concrete configuration without the batch capability. -/
def wCfgNB : Config :=
  { force := false, cooldownMs := 100, now := 1, davPrefix := "", maxSizeBytes := 5,
    batchCap := false, existsOracle := fun _ => false, batchOracle := fun _ => none,
    pvOracle := fun _ => oracleFailAll, uploadOk := fun _ => true }

/-- A walker state whose folder cache holds an entry for `/Videos` with
mtime `M1`, scanned at time 0. -/
def wStateC : WState := ⟨[("/Videos", (0 : Int), "M1")], [], [], ⟨0, 0, 0, [], 0, 0⟩, []⟩

/-- A concrete configuration with force mode on. -/
def wCfgForce : Config :=
  { force := true, cooldownMs := 100, now := 1, davPrefix := "", maxSizeBytes := 5,
    batchCap := false, existsOracle := fun _ => false, batchOracle := fun _ => none,
    pvOracle := fun _ => oracleFailAll, uploadOk := fun _ => true }

/-! ## Theorems -/

theorem schedInv_start (ioLimit : Nat) : SchedInv (Sched.start ioLimit) := by
  constructor <;> simp [Sched.start]

theorem schedInv_step {s s' : Sched} (hs : SchedInv s) (h : SchedStep s s') : SchedInv s' := by
  obtain ⟨h1, h2, h3, h4, h5, h6, h7, h8, h9⟩ := hs
  cases h with
  | ioSubmit j hfresh =>
      refine ⟨h1, h2, h3, h4, h5, ?_, h7, ?_, h9⟩
      · show s.ioStarted ++ (s.io.queue ++ [j]) = s.ioSubmitted ++ [j]
        rw [← List.append_assoc, h6]
      · intro x hx
        simp only [List.mem_append, List.mem_singleton] at hx ⊢
        rcases hx with hx | hx
        · rcases h8 x hx with h | h | h
          · exact Or.inl (Or.inl h)
          · exact Or.inr (Or.inl h)
          · exact Or.inr (Or.inr h)
        · exact Or.inl (Or.inr hx)
  | ioStart j rest hq hcap =>
      refine ⟨?_, h2, ?_, h4, h5, ?_, h7, ?_, h9⟩
      · show s.io.running + 1 = (j :: s.ioRun).length
        simp [h1]
      · show s.io.running + 1 ≤ s.io.concurrency
        omega
      · show s.ioStarted ++ [j] ++ rest = s.ioSubmitted
        rw [List.append_assoc, List.singleton_append, ← hq]
        exact h6
      · intro x hx
        rcases h8 x hx with h | h | h
        · rw [hq] at h
          rcases List.mem_cons.mp h with h | h
          · exact Or.inr (Or.inl (h ▸ List.mem_cons_self _ _))
          · exact Or.inl h
        · exact Or.inr (Or.inl (List.mem_cons_of_mem _ h))
        · exact Or.inr (Or.inr h)
  | mediaSpawn j m hj hfresh =>
      refine ⟨h1, h2, h3, h4, h5, h6, ?_, h8, ?_⟩
      · show s.medStarted ++ (s.media.queue ++ [m]) = s.medSubmitted ++ [m]
        rw [← List.append_assoc, h7]
      · intro x hx
        simp only [List.mem_append, List.mem_singleton] at hx ⊢
        rcases hx with hx | hx
        · rcases h9 x hx with h | h | h
          · exact Or.inl (Or.inl h)
          · exact Or.inr (Or.inl h)
          · exact Or.inr (Or.inr h)
        · exact Or.inl (Or.inr hx)
  | mediaStart m rest hq hcap =>
      refine ⟨h1, ?_, h3, ?_, h5, h6, ?_, h8, ?_⟩
      · show s.media.running + 1 = (m :: s.medRun).length
        simp [h2]
      · show s.media.running + 1 ≤ s.media.concurrency
        omega
      · show s.medStarted ++ [m] ++ rest = s.medSubmitted
        rw [List.append_assoc, List.singleton_append, ← hq]
        exact h7
      · intro x hx
        rcases h9 x hx with h | h | h
        · rw [hq] at h
          rcases List.mem_cons.mp h with h | h
          · exact Or.inr (Or.inl (h ▸ List.mem_cons_self _ _))
          · exact Or.inl h
        · exact Or.inr (Or.inl (List.mem_cons_of_mem _ h))
        · exact Or.inr (Or.inr h)
  | mediaFinish m hm =>
      refine ⟨h1, ?_, h3, ?_, h5, h6, h7, h8, ?_⟩
      · show s.media.running - 1 = (s.medRun.erase m).length
        rw [h2, List.length_erase_of_mem hm]
      · show s.media.running - 1 ≤ s.media.concurrency
        omega
      · intro x hx
        rcases h9 x hx with h | h | h
        · exact Or.inl h
        · by_cases hxm : x = m
          · exact Or.inr (Or.inr (hxm ▸ List.mem_cons_self _ _))
          · exact Or.inr (Or.inl ((List.mem_erase_of_ne hxm).mpr h))
        · exact Or.inr (Or.inr (List.mem_cons_of_mem _ h))
  | ioFinish j hj hchild =>
      refine ⟨?_, h2, ?_, h4, h5, h6, h7, ?_, h9⟩
      · show s.io.running - 1 = (s.ioRun.erase j).length
        rw [h1, List.length_erase_of_mem hj]
      · show s.io.running - 1 ≤ s.io.concurrency
        omega
      · intro x hx
        rcases h8 x hx with h | h | h
        · exact Or.inl h
        · by_cases hxj : x = j
          · exact Or.inr (Or.inr (hxj ▸ List.mem_cons_self _ _))
          · exact Or.inr (Or.inl ((List.mem_erase_of_ne hxj).mpr h))
        · exact Or.inr (Or.inr (List.mem_cons_of_mem _ h))

theorem schedInv_reachable {ioLimit : Nat} {s : Sched} (h : Reachable ioLimit s) :
    SchedInv s := by
  induction h with
  | refl => exact schedInv_start ioLimit
  | tail _ hstep ih => exact schedInv_step ih hstep

/-- C1.  In every reachable scheduler state, each lane's `running` count is
bounded by its concurrency limit, jobs are started in exactly FIFO
submission order (the started sequence followed by the pending queue is the
submission sequence), and — since the media queue is constructed with
concurrency 1 — at most one media subprocess (probe or frame extraction) is
active at any instant, regardless of the I/O lane's configured
concurrency. -/
theorem jobQueue_bounded_fifo_media_serialized (ioLimit : Nat) (s : Sched)
    (h : Reachable ioLimit s) :
    s.io.running ≤ s.io.concurrency ∧
    s.media.running ≤ s.media.concurrency ∧
    s.media.running ≤ 1 ∧
    s.ioStarted ++ s.io.queue = s.ioSubmitted ∧
    s.medStarted ++ s.media.queue = s.medSubmitted := by
  obtain ⟨h1, h2, h3, h4, h5, h6, h7, h8, h9⟩ := schedInv_reachable h
  exact ⟨h3, h4, h5 ▸ h4, h6, h7⟩

theorem reachable_wSched2 : Reachable 2 wSched2 := by
  have r1 : SchedStep (Sched.start 2) wSched1 := by
    have := SchedStep.ioSubmit (Sched.start 2) 0 (by simp [Sched.start])
    simpa [Sched.start, wSched1] using this
  have r2 : SchedStep wSched1 wSched2 := by
    have := SchedStep.ioStart wSched1 0 [] (by simp [wSched1, Sched.start])
      (by simp [wSched1, Sched.start])
    simpa [wSched1, wSched2, Sched.start] using this
  exact Relation.ReflTransGen.tail (Relation.ReflTransGen.tail Relation.ReflTransGen.refl r1) r2

/-- Witness for C1 at a concrete reachable state with one running I/O job. -/
theorem jobQueue_bounded_fifo_media_serialized_witness :
    wSched2.io.running ≤ wSched2.io.concurrency ∧
    wSched2.media.running ≤ wSched2.media.concurrency ∧
    wSched2.media.running ≤ 1 ∧
    wSched2.ioStarted ++ wSched2.io.queue = wSched2.ioSubmitted ∧
    wSched2.medStarted ++ wSched2.media.queue = wSched2.medSubmitted :=
  jobQueue_bounded_fifo_media_serialized 2 wSched2 reachable_wSched2

/-- C10.  Whenever both queues simultaneously report zero running jobs and
empty pending lists — the drain condition polled by the run driver
(index.js 519) — every job ever submitted to either queue has fully
completed.  An I/O job awaiting a nested media-queue submission still
occupies its I/O slot (`ioFinish` requires all spawned media jobs done), and
spawning requires a running I/O job, so the drain condition cannot be
observed while work is outstanding or while a still-running job could
enqueue more. -/
theorem drain_implies_all_jobs_complete (ioLimit : Nat) (s : Sched)
    (h : Reachable ioLimit s)
    (hior : s.io.running = 0) (hioq : s.io.queue = [])
    (hmedr : s.media.running = 0) (hmedq : s.media.queue = []) :
    (∀ j ∈ s.ioSubmitted, j ∈ s.ioDone) ∧ (∀ m ∈ s.medSubmitted, m ∈ s.medDone) := by
  obtain ⟨h1, h2, h3, h4, h5, h6, h7, h8, h9⟩ := schedInv_reachable h
  have hioRun : s.ioRun = [] := List.eq_nil_of_length_eq_zero (by omega)
  have hmedRun : s.medRun = [] := List.eq_nil_of_length_eq_zero (by omega)
  constructor
  · intro j hj
    rcases h8 j hj with h | h | h
    · rw [hioq] at h; cases h
    · rw [hioRun] at h; cases h
    · exact h
  · intro m hm
    rcases h9 m hm with h | h | h
    · rw [hmedq] at h; cases h
    · rw [hmedRun] at h; cases h
    · exact h

theorem reachable_wSched3 : Reachable 2 wSched3 := by
  have r3 : SchedStep wSched2 wSched3 := by
    have := SchedStep.ioFinish wSched2 0 (by simp [wSched2, wSched1, Sched.start])
      (by simp [wSched2, wSched1, Sched.start])
    simpa [wSched2, wSched3, wSched1, Sched.start] using this
  exact Relation.ReflTransGen.tail reachable_wSched2 r3

/-- Witness for C10 at a concrete drained state reached by submitting,
starting and finishing one I/O job. -/
theorem drain_implies_all_jobs_complete_witness :
    (∀ j ∈ wSched3.ioSubmitted, j ∈ wSched3.ioDone) ∧
    (∀ m ∈ wSched3.medSubmitted, m ∈ wSched3.medDone) :=
  drain_implies_all_jobs_complete 2 wSched3 reachable_wSched3
    (by simp [wSched3, wSched2, wSched1, Sched.start])
    (by simp [wSched3, wSched2, wSched1, Sched.start])
    (by simp [wSched3, wSched2, wSched1, Sched.start])
    (by simp [wSched3, wSched2, wSched1, Sched.start])

/-- C4, counterexample.  At duration exactly 50 the largest threshold
`t ≤ D` is 50, but the code's strict cascade selects 40: the claimed
`t ≤ D` policy disagrees with `thumbTime` at the boundary. -/
theorem thumbTime_boundary_counterexample :
    specTimeLE 50 = 50 ∧ thumbTime 50 = 40 ∧ thumbTime 50 ≠ specTimeLE 50 := by
  norm_num [thumbTime, specTimeLE, thresholds, List.filter]

/-- C4, amended.  The timestamp equals the largest threshold
`t ∈ {50,40,30,20,10,5}` with `t < D` (strictly) for `D > 5`, and
`max(0, 0.2×D)` for `D ≤ 5`; the claim's sample durations 65, 42, 7 and 3
yield 50, 40, 5 and 0.6 as stated. -/
theorem thumbTime_strict_threshold_policy :
    (∀ D : ℚ, thumbTime D = specTimeLT D) ∧
    thumbTime 65 = 50 ∧ thumbTime 42 = 40 ∧ thumbTime 7 = 5 ∧ thumbTime 3 = 3/5 := by
  refine ⟨fun D => ?_, by norm_num [thumbTime], by norm_num [thumbTime],
    by norm_num [thumbTime], by norm_num [thumbTime]⟩
  unfold thumbTime specTimeLT thresholds
  rcases lt_or_le 50 D with h50 | h50
  · have h5 : ¬ D ≤ 5 := by linarith
    simp [h5, h50, List.filter]
  rcases lt_or_le 40 D with h40 | h40
  · have h5 : ¬ D ≤ 5 := by linarith
    have h50' : ¬ 50 < D := by linarith
    simp [h5, h40, h50', List.filter]
  rcases lt_or_le 30 D with h30 | h30
  · have h5 : ¬ D ≤ 5 := by linarith
    have h50' : ¬ 50 < D := by linarith
    have h40' : ¬ 40 < D := by linarith
    simp [h5, h30, h50', h40', List.filter]
  rcases lt_or_le 20 D with h20 | h20
  · have h5 : ¬ D ≤ 5 := by linarith
    have h50' : ¬ 50 < D := by linarith
    have h40' : ¬ 40 < D := by linarith
    have h30' : ¬ 30 < D := by linarith
    simp [h5, h20, h50', h40', h30', List.filter]
  rcases lt_or_le 10 D with h10 | h10
  · have h5 : ¬ D ≤ 5 := by linarith
    have h50' : ¬ 50 < D := by linarith
    have h40' : ¬ 40 < D := by linarith
    have h30' : ¬ 30 < D := by linarith
    have h20' : ¬ 20 < D := by linarith
    simp [h5, h10, h50', h40', h30', h20', List.filter]
  rcases lt_or_le 5 D with h5 | h5
  · have h5' : ¬ D ≤ 5 := by linarith
    have h50' : ¬ 50 < D := by linarith
    have h40' : ¬ 40 < D := by linarith
    have h30' : ¬ 30 < D := by linarith
    have h20' : ¬ 20 < D := by linarith
    have h10' : ¬ 10 < D := by linarith
    simp [h5, h5', h50', h40', h30', h20', h10', List.filter]
  · have h50' : ¬ 50 < D := by linarith
    have h40' : ¬ 40 < D := by linarith
    have h30' : ¬ 30 < D := by linarith
    have h20' : ¬ 20 < D := by linarith
    have h10' : ¬ 10 < D := by linarith
    have h5' : ¬ 5 < D := by linarith
    simp [h5, h50', h40', h30', h20', h10', h5', List.filter]


theorem fullDownload_not_in_stage1 (o : PVOracle) : PVEvent.fullDownload ∉ (stage1 o).2 := by
  unfold stage1
  rcases o.stage1 with _ | f
  · simp
  · rcases f with _ | d <;> simp

theorem fullDownload_not_in_stage2 (o : PVOracle) : PVEvent.fullDownload ∉ (stage2 o).2 := by
  unfold stage2
  rcases h : o.stage2Probe with _ | d <;> split_ifs <;> simp

theorem rangedDownload_in_stage2 (o : PVOracle) : PVEvent.rangedDownload ∈ (stage2 o).2 := by
  unfold stage2
  rcases h : o.stage2Probe with _ | d <;> split_ifs <;> simp

/-- C3 -/
theorem sizeSkip_no_full_download (cfg : Config) (relPath : String) (size : Nat) (s : WState)
    (h1 : (stage1 (cfg.pvOracle relPath)).1 = false)
    (h2 : (stage2 (cfg.pvOracle relPath)).1 = false)
    (hsize : size > cfg.maxSizeBytes) :
    (runJob cfg relPath size s).thumbCache = s.thumbCache ∧
    (runJob cfg relPath size s).failCache = s.failCache ∧
    (runJob cfg relPath size s).stats.skippedSize = s.stats.skippedSize + 1 ∧
    (runJob cfg relPath size s).stats.skippedSizeList
      = s.stats.skippedSizeList ++ [(relPath, size)] ∧
    (runJob cfg relPath size s).stats.uploaded = s.stats.uploaded ∧
    (runJob cfg relPath size s).stats.failed = s.stats.failed ∧
    (runJob cfg relPath size s).trace
      = s.trace ++ ((stage1 (cfg.pvOracle relPath)).2
          ++ (stage2 (cfg.pvOracle relPath)).2).map (Event.pipe relPath) ∧
    PVEvent.fullDownload ∉ (stage1 (cfg.pvOracle relPath)).2 ++ (stage2 (cfg.pvOracle relPath)).2 := by
  have hfd : PVEvent.fullDownload ∉ (stage1 (cfg.pvOracle relPath)).2
      ++ (stage2 (cfg.pvOracle relPath)).2 := by
    simp only [List.mem_append]
    rintro (h | h)
    · exact fullDownload_not_in_stage1 _ h
    · exact fullDownload_not_in_stage2 _ h
  simp only [runJob, processVideo, h1, h2, stage3, hsize, if_true, if_pos, Bool.false_eq_true,
    if_false]
  simp [hfd]

/-- C3 witness -/
theorem sizeSkip_no_full_download_witness :
    (runJob wCfgNB "/big.mp4" 10 emptyW).thumbCache = emptyW.thumbCache ∧
    (runJob wCfgNB "/big.mp4" 10 emptyW).failCache = emptyW.failCache ∧
    (runJob wCfgNB "/big.mp4" 10 emptyW).stats.skippedSize = emptyW.stats.skippedSize + 1 ∧
    (runJob wCfgNB "/big.mp4" 10 emptyW).stats.skippedSizeList
      = emptyW.stats.skippedSizeList ++ [("/big.mp4", 10)] ∧
    (runJob wCfgNB "/big.mp4" 10 emptyW).stats.uploaded = emptyW.stats.uploaded ∧
    (runJob wCfgNB "/big.mp4" 10 emptyW).stats.failed = emptyW.stats.failed ∧
    (runJob wCfgNB "/big.mp4" 10 emptyW).trace
      = emptyW.trace ++ ((stage1 (wCfgNB.pvOracle "/big.mp4")).2
          ++ (stage2 (wCfgNB.pvOracle "/big.mp4")).2).map (Event.pipe "/big.mp4") ∧
    PVEvent.fullDownload ∉ (stage1 (wCfgNB.pvOracle "/big.mp4")).2
      ++ (stage2 (wCfgNB.pvOracle "/big.mp4")).2 :=
  sizeSkip_no_full_download wCfgNB "/big.mp4" 10 emptyW (by decide) (by decide) (by decide)

/-- C6 counterexample -/
theorem stage1_missing_duration_counterexample :
    (processVideo probeNoDuration "/v.mp4" 10 100 emptyStats).1 = .success ∧
    PVEvent.remoteExtract 0 ∈ (processVideo probeNoDuration "/v.mp4" 10 100 emptyStats).2.2 ∧
    PVEvent.rangedDownload ∉ (processVideo probeNoDuration "/v.mp4" 10 100 emptyStats).2.2 := by
  refine ⟨?_, ?_, ?_⟩
  · norm_num [processVideo, stage1, probeNoDuration]
  · norm_num [processVideo, stage1, probeNoDuration, thumbTime]
  · norm_num [processVideo, stage1, probeNoDuration, thumbTime]
    decide

/-- C6 amended -/
theorem stage1_duration_handling (o : PVOracle) (relPath : String)
    (size maxSize : Nat) (st : Stats) :
    (o.stage1 = .parsed none →
      (stage1 o).1 = false ∧ (stage1 o).2 = [.remoteProbe] ∧
      PVEvent.rangedDownload ∈ (processVideo o relPath size maxSize st).2.2) ∧
    (o.stage1 = .parsed (some none) →
      stage1 o = (o.stage1Extract, [.remoteProbe, .remoteExtract 0])) := by
  constructor
  · intro h
    have hs1 : stage1 o = (false, [.remoteProbe]) := by rw [stage1, h]
    refine ⟨by rw [hs1], by rw [hs1], ?_⟩
    have hr := rangedDownload_in_stage2 o
    by_cases h2 : (stage2 o).1
    · simp [processVideo, hs1, h2, hr]
    · simp [processVideo, hs1, h2, hr]
  · intro h
    rw [stage1, h]
    norm_num [thumbTime]

/-- C6 witness -/
theorem stage1_duration_handling_witness :
    ((probeNoDuration.stage1 = .parsed none →
      (stage1 probeNoDuration).1 = false ∧ (stage1 probeNoDuration).2 = [.remoteProbe] ∧
      PVEvent.rangedDownload ∈ (processVideo probeNoDuration "/v.mp4" 10 100 emptyStats).2.2) ∧
    (probeNoDuration.stage1 = .parsed (some none) →
      stage1 probeNoDuration = (probeNoDuration.stage1Extract, [.remoteProbe, .remoteExtract 0]))) :=
  stage1_duration_handling probeNoDuration "/v.mp4" 10 100 emptyStats

/-- C7 counterexample -/
theorem resolver_fallback_not_queued_counterexample :
    (checkBatchRemoteExists wCfgNB ["/a.mp4"]).2 = [Event.existsRequest "/a.mp4"] ∧
    countIoTasks (checkBatchRemoteExists wCfgNB ["/a.mp4"]).2 = 0 ∧
    countExistsRequests (checkBatchRemoteExists wCfgNB ["/a.mp4"]).2 = 1 := by
  refine ⟨by rfl, by rfl, by rfl⟩

/-- C7 amended -/
theorem resolver_fallback_sequential_direct (cfg : Config) (relPaths : List String)
    (hcap : cfg.batchCap = false) :
    (checkBatchRemoteExists cfg relPaths).1
      = relPaths.map (fun p => (p, cfg.existsOracle p)) ∧
    (checkBatchRemoteExists cfg relPaths).2
      = relPaths.map (fun p => Event.existsRequest p) ∧
    countIoTasks (checkBatchRemoteExists cfg relPaths).2 = 0 := by
  refine ⟨by simp [checkBatchRemoteExists, hcap], by simp [checkBatchRemoteExists, hcap], ?_⟩
  simp [checkBatchRemoteExists, hcap, countIoTasks, List.countP_map]

/-- C7 witness -/
theorem resolver_fallback_sequential_direct_witness :
    (checkBatchRemoteExists wCfgNB ["/a.mp4", "/b.mkv"]).1
      = ["/a.mp4", "/b.mkv"].map (fun p => (p, wCfgNB.existsOracle p)) ∧
    (checkBatchRemoteExists wCfgNB ["/a.mp4", "/b.mkv"]).2
      = ["/a.mp4", "/b.mkv"].map (fun p => Event.existsRequest p) ∧
    countIoTasks (checkBatchRemoteExists wCfgNB ["/a.mp4", "/b.mkv"]).2 = 0 :=
  resolver_fallback_sequential_direct wCfgNB ["/a.mp4", "/b.mkv"] (by rfl)

theorem processFolder_file (cfg : Config) (fn : String) (sz : Nat) (s : WState) :
    processFolder cfg (.file fn sz) s = (false, s) := by
  rw [processFolder.eq_def]

theorem processFolder_statFail (cfg : Config) (fn : String) (listing : Option (List RTree))
    (s : WState) :
    processFolder cfg (.dir fn none listing) s
      = (false, { s with trace := s.trace ++ [.statCall (relDirOf cfg fn)] }) := by
  rw [processFolder.eq_def]

theorem processFolder_skip (cfg : Config) (fn lastmod : String)
    (listing : Option (List RTree)) (s : WState)
    (hskip : cacheSkip cfg s.folderCache (relDirOf cfg fn) lastmod = true) :
    processFolder cfg (.dir fn (some lastmod) listing) s
      = (false, { s with trace := s.trace ++ [.statCall (relDirOf cfg fn)] }) := by
  rw [processFolder.eq_def]
  simp only [hskip, if_true]

theorem processFolder_listFail (cfg : Config) (fn lastmod : String) (s : WState)
    (hskip : cacheSkip cfg s.folderCache (relDirOf cfg fn) lastmod = false) :
    processFolder cfg (.dir fn (some lastmod) none) s
      = (false, { s with trace := s.trace ++ [.statCall (relDirOf cfg fn),
                                              .listCall (relDirOf cfg fn)] }) := by
  rw [processFolder.eq_def]
  simp only [hskip, Bool.false_eq_true, if_false, List.append_assoc, List.singleton_append]

theorem processFolder_scan (cfg : Config) (fn lastmod : String) (items : List RTree) (s : WState)
    (hskip : cacheSkip cfg s.folderCache (relDirOf cfg fn) lastmod = false)
    (c : Bool × List (String × Nat) × WState)
    (hc : classifyItems cfg items
        { s with trace := s.trace ++ [.statCall (relDirOf cfg fn),
                                      .listCall (relDirOf cfg fn)] } = c) :
    processFolder cfg (.dir fn (some lastmod) (some items)) s
      = (c.1, { (if c.2.1.isEmpty then c.2.2 else handleVideos cfg c.2.1 c.2.2) with
                folderCache := setFC
                  (if c.2.1.isEmpty then c.2.2 else handleVideos cfg c.2.1 c.2.2).folderCache
                  (relDirOf cfg fn) (cfg.now, lastmod) }) := by
  rw [processFolder.eq_def]
  simp only [hskip, Bool.false_eq_true, if_false, List.append_assoc, List.singleton_append, hc]

theorem classifyItems_nil (cfg : Config) (s : WState) :
    classifyItems cfg [] s = (false, [], s) := by
  rw [classifyItems.eq_def]

theorem classifyItems_dir (cfg : Config) (fn : String) (stR : Option String)
    (l : Option (List RTree)) (rest : List RTree) (s : WState) :
    classifyItems cfg (.dir fn stR l :: rest) s
      = ((processFolder cfg (.dir fn stR l) s).1
           || (classifyItems cfg rest (processFolder cfg (.dir fn stR l) s).2).1,
         (classifyItems cfg rest (processFolder cfg (.dir fn stR l) s).2).2.1,
         (classifyItems cfg rest (processFolder cfg (.dir fn stR l) s).2).2.2) := by
  rw [classifyItems.eq_def]

theorem classifyItems_video_cached (cfg : Config) (fn : String) (sz : Nat) (rest : List RTree)
    (s : WState) (hvid : isVideoFile fn = true)
    (hcache : (!cfg.force && (s.thumbCache.contains (getRelativePath cfg.davPrefix fn)
        || s.failCache.contains (getRelativePath cfg.davPrefix fn))) = true) :
    classifyItems cfg (.file fn sz :: rest) s
      = (true,
         (classifyItems cfg rest
            { s with stats := { s.stats with skippedCache := s.stats.skippedCache + 1 },
                     trace := s.trace
                       ++ [.discovered (getRelativePath cfg.davPrefix fn)] }).2.1,
         (classifyItems cfg rest
            { s with stats := { s.stats with skippedCache := s.stats.skippedCache + 1 },
                     trace := s.trace
                       ++ [.discovered (getRelativePath cfg.davPrefix fn)] }).2.2) := by
  rw [classifyItems.eq_def]
  simp only [hvid, if_true, hcache]

theorem classifyItems_video_new (cfg : Config) (fn : String) (sz : Nat) (rest : List RTree)
    (s : WState) (hvid : isVideoFile fn = true)
    (hcache : (!cfg.force && (s.thumbCache.contains (getRelativePath cfg.davPrefix fn)
        || s.failCache.contains (getRelativePath cfg.davPrefix fn))) = false) :
    classifyItems cfg (.file fn sz :: rest) s
      = (true,
         (fn, sz) :: (classifyItems cfg rest
            { s with trace := s.trace
                ++ [.discovered (getRelativePath cfg.davPrefix fn)] }).2.1,
         (classifyItems cfg rest
            { s with trace := s.trace
                ++ [.discovered (getRelativePath cfg.davPrefix fn)] }).2.2) := by
  rw [classifyItems.eq_def]
  simp only [hvid, if_true, hcache, Bool.false_eq_true, if_false]

theorem classifyItems_other (cfg : Config) (fn : String) (sz : Nat) (rest : List RTree)
    (s : WState) (hvid : isVideoFile fn = false) :
    classifyItems cfg (.file fn sz :: rest) s = classifyItems cfg rest s := by
  rw [classifyItems.eq_def]
  simp only [hvid, Bool.false_eq_true, if_false]


theorem countDiscovered_append (a b : List Event) :
    countDiscovered (a ++ b) = countDiscovered a + countDiscovered b :=
  List.countP_append _ _ _

theorem countDiscovered_pipes (p : String) (evs : List PVEvent) :
    countDiscovered (evs.map (Event.pipe p)) = 0 := by
  simp [countDiscovered, List.countP_map]

theorem countDiscovered_batch (cfg : Config) (ps : List String) :
    countDiscovered (checkBatchRemoteExists cfg ps).2 = 0 := by
  unfold checkBatchRemoteExists
  split_ifs
  · simp [countDiscovered, List.countP_map]
  · rcases cfg.batchOracle ps with _ | r <;> simp [countDiscovered]

theorem processVideo_stats (o : PVOracle) (p : String) (n m : Nat) (st : Stats) :
    ((processVideo o p n m st).1 = .sizeSkip ∧
     statsSum (processVideo o p n m st).2.1 = statsSum st + 1) ∨
    ((processVideo o p n m st).1 ≠ .sizeSkip ∧ (processVideo o p n m st).2.1 = st) := by
  unfold processVideo
  split_ifs with hs1 hs2
  · right; simp
  · right; simp
  · unfold stage3
    rcases hp : o.stage3Probe with _ | dur <;> simp only [hp] <;> split_ifs <;>
      first
        | (left; exact ⟨rfl, by simp [statsSum]; omega⟩)
        | (right; exact ⟨by simp, rfl⟩)

theorem runJob_stats (cfg : Config) (p : String) (sz : Nat) (s : WState) :
    statsSum (runJob cfg p sz s).stats = statsSum s.stats + 1 ∧
    countDiscovered (runJob cfg p sz s).trace = countDiscovered s.trace := by
  unfold runJob
  rcases processVideo_stats (cfg.pvOracle p) p sz cfg.maxSizeBytes s.stats with ⟨h1, h2⟩ | ⟨h1, h2⟩
  · simp only [h1]
    simp [h2, countDiscovered_append, countDiscovered_pipes]
  · rcases hr : (processVideo (cfg.pvOracle p) p sz cfg.maxSizeBytes s.stats).1 with _ | _ | _
    · simp only [hr]
      by_cases hu : cfg.uploadOk p = true <;>
        simp [hu, h2, statsSum, countDiscovered_append, countDiscovered_pipes] <;> omega
    · exact absurd hr h1
    · simp only [hr]
      simp [h2, statsSum, countDiscovered_append, countDiscovered_pipes]
      omega

theorem existsOrJob_stats (cfg : Config) (br : List (String × Bool)) (a : WState)
    (v : String × Nat) :
    statsSum (existsOrJob cfg br a v).stats = statsSum a.stats + 1 ∧
    countDiscovered (existsOrJob cfg br a v).trace = countDiscovered a.trace := by
  simp only [existsOrJob]
  split_ifs with h
  · simp [statsSum]
    omega
  · have := runJob_stats cfg (getRelativePath cfg.davPrefix v.1) v.2
      { a with trace := a.trace ++ [.ioTask (getRelativePath cfg.davPrefix v.1)] }
    simpa [countDiscovered_append, countDiscovered] using this

theorem foldl_existsOrJob_stats (cfg : Config) (br : List (String × Bool))
    (vids : List (String × Nat)) : ∀ (a : WState),
    statsSum (vids.foldl (existsOrJob cfg br) a).stats = statsSum a.stats + vids.length ∧
    countDiscovered (vids.foldl (existsOrJob cfg br) a).trace = countDiscovered a.trace := by
  induction vids with
  | nil => intro a; simp
  | cons v rest ih =>
      intro a
      rw [List.foldl_cons]
      obtain ⟨e1, e2⟩ := existsOrJob_stats cfg br a v
      obtain ⟨f1, f2⟩ := ih (existsOrJob cfg br a v)
      constructor
      · rw [f1, e1]; simp; omega
      · rw [f2, e2]

theorem handleVideos_stats (cfg : Config) (vids : List (String × Nat)) (s : WState) :
    statsSum (handleVideos cfg vids s).stats = statsSum s.stats + vids.length ∧
    countDiscovered (handleVideos cfg vids s).trace = countDiscovered s.trace := by
  unfold handleVideos
  obtain ⟨f1, f2⟩ := foldl_existsOrJob_stats cfg
    (checkBatchRemoteExists cfg (vids.map (fun v => getRelativePath cfg.davPrefix v.1))).1 vids
    { s with trace := s.trace
        ++ (checkBatchRemoteExists cfg (vids.map (fun v => getRelativePath cfg.davPrefix v.1))).2 }
  refine ⟨by simpa using f1, ?_⟩
  rw [f2]
  simp [countDiscovered_append, countDiscovered_batch]

theorem countDiscovered_statEvent (a : List Event) (p : String) :
    countDiscovered (a ++ [.statCall p]) = countDiscovered a := by
  simp [countDiscovered]

theorem countDiscovered_scanEvents (a : List Event) (p q : String) :
    countDiscovered (a ++ [.statCall p, .listCall q]) = countDiscovered a := by
  simp [countDiscovered]

theorem countDiscovered_discoveredEvent (a : List Event) (p : String) :
    countDiscovered (a ++ [.discovered p]) = countDiscovered a + 1 := by
  simp [countDiscovered]

theorem statsSum_skippedCache (st : Stats) :
    statsSum { st with skippedCache := st.skippedCache + 1 } = statsSum st + 1 := by
  simp [statsSum]
  omega

theorem walker_counts_aux (cfg : Config) : ∀ n : Nat,
    (∀ t : RTree, sizeOf t ≤ n → ∀ s : WState,
      statsSum (processFolder cfg t s).2.stats + countDiscovered s.trace
        = statsSum s.stats + countDiscovered (processFolder cfg t s).2.trace) ∧
    (∀ items : List RTree, sizeOf items ≤ n → ∀ s : WState,
      statsSum (classifyItems cfg items s).2.2.stats
          + (classifyItems cfg items s).2.1.length + countDiscovered s.trace
        = statsSum s.stats + countDiscovered (classifyItems cfg items s).2.2.trace) := by
  intro n
  induction n using Nat.strong_induction_on with
  | _ n ih =>
    constructor
    · intro t ht s
      match t with
      | .file fn sz => rw [processFolder_file]
      | .dir fn none listing =>
          rw [processFolder_statFail]
          simp [countDiscovered_statEvent]
      | .dir fn (some lastmod) listing =>
          by_cases hskip : cacheSkip cfg s.folderCache (relDirOf cfg fn) lastmod = true
          · rw [processFolder_skip cfg fn lastmod listing s hskip]
            simp [countDiscovered_statEvent]
          · rw [Bool.not_eq_true] at hskip
            match listing with
            | none =>
                rw [processFolder_listFail cfg fn lastmod s hskip]
                simp [countDiscovered_scanEvents]
            | some items =>
                have hsz : sizeOf items < n := by
                  have : sizeOf items < sizeOf (RTree.dir fn (some lastmod) (some items)) := by
                    simp
                    omega
                  omega
                have hQ := (ih (sizeOf items) hsz).2 items le_rfl
                  { s with trace := s.trace ++ [.statCall (relDirOf cfg fn),
                                                .listCall (relDirOf cfg fn)] }
                rcases hc : classifyItems cfg items
                    { s with trace := s.trace ++ [.statCall (relDirOf cfg fn),
                                                  .listCall (relDirOf cfg fn)] } with ⟨b, vids, s3⟩
                rw [hc] at hQ
                simp only [] at hQ
                rw [countDiscovered_scanEvents] at hQ
                rw [processFolder_scan cfg fn lastmod items s hskip _ hc]
                rcases vids with _ | ⟨v, vs⟩
                · simpa using hQ
                · obtain ⟨hv1, hv2⟩ := handleVideos_stats cfg (v :: vs) s3
                  simp only []
                  simp only [List.isEmpty_cons, Bool.false_eq_true, if_false]
                  rw [hv1, hv2]
                  simp only [List.length_cons] at hQ ⊢
                  omega
    · intro items hits s
      match items with
      | [] =>
          rw [classifyItems_nil]
          simp
      | .dir fn stR l :: rest =>
          have hsz1 : sizeOf (RTree.dir fn stR l) < n := by
            have : sizeOf (RTree.dir fn stR l) < sizeOf (RTree.dir fn stR l :: rest) := by
              simp
              try omega
            omega
          have hsz2 : sizeOf rest < n := by
            have : sizeOf rest < sizeOf (RTree.dir fn stR l :: rest) := by
              simp
              try omega
            omega
          have hP := (ih _ hsz1).1 (RTree.dir fn stR l) le_rfl s
          have hQ := (ih _ hsz2).2 rest le_rfl (processFolder cfg (RTree.dir fn stR l) s).2
          rw [classifyItems_dir]
          simp only []
          omega
      | .file fn sz :: rest =>
          have hsz2 : sizeOf rest < n := by
            have : sizeOf rest < sizeOf (RTree.file fn sz :: rest) := by
              simp
              try omega
            omega
          by_cases hvid : isVideoFile fn = true
          · by_cases hcache : (!cfg.force
                && (s.thumbCache.contains (getRelativePath cfg.davPrefix fn)
                    || s.failCache.contains (getRelativePath cfg.davPrefix fn))) = true
            · rw [classifyItems_video_cached cfg fn sz rest s hvid hcache]
              have hQ := (ih _ hsz2).2 rest le_rfl
                { s with stats := { s.stats with skippedCache := s.stats.skippedCache + 1 },
                         trace := s.trace
                           ++ [.discovered (getRelativePath cfg.davPrefix fn)] }
              simp only [] at hQ
              rw [countDiscovered_discoveredEvent, statsSum_skippedCache] at hQ
              simp only []
              omega
            · rw [Bool.not_eq_true] at hcache
              rw [classifyItems_video_new cfg fn sz rest s hvid hcache]
              have hQ := (ih _ hsz2).2 rest le_rfl
                { s with trace := s.trace
                    ++ [.discovered (getRelativePath cfg.davPrefix fn)] }
              simp only [] at hQ
              rw [countDiscovered_discoveredEvent] at hQ
              simp only [List.length_cons]
              omega
          · rw [Bool.not_eq_true] at hvid
            rw [classifyItems_other cfg fn sz rest s hvid]
            exact (ih _ hsz2).2 rest le_rfl s

/-- C8.  Exactly one of the five outcome counters is incremented per
discovered candidate per run: across any walker call, the total increase of
`uploaded + failed + skippedSize + skippedExists + skippedCache` equals the
number of `discovered` events recorded (one per listed file whose extension
matches the recognized video set), the per-candidate branches each adding
exactly one count — `skippedCache` in classification, `skippedExists` in the
batch phase, and `uploaded`/`failed`/`skippedSize` in the job. -/
theorem each_candidate_counted_once (cfg : Config) (t : RTree) (s : WState) :
    statsSum (processFolder cfg t s).2.stats + countDiscovered s.trace
      = statsSum s.stats + countDiscovered (processFolder cfg t s).2.trace :=
  (walker_counts_aux cfg (sizeOf t)).1 t le_rfl s


theorem allAccessible_stat_fail (fn : String) (l : Option (List RTree)) :
    allAccessible (.dir fn none l) = false := by
  rw [allAccessible.eq_def]
  rcases l with _ | items <;> rfl

theorem allAccessible_listing_fail (fn : String) (stR : Option String) :
    allAccessible (.dir fn stR none) = false := by
  rw [allAccessible.eq_def]
  rcases stR with _ | m <;> rfl

theorem allAccessible_scan (fn m : String) (items : List RTree) :
    allAccessible (.dir fn (some m) (some items)) = allAccessibleL items := by
  rw [allAccessible.eq_def]

theorem allAccessibleL_cons (it : RTree) (rest : List RTree) :
    allAccessibleL (it :: rest) = (allAccessible it && allAccessibleL rest) := by
  rw [allAccessibleL.eq_def]

theorem subtreeHasVideo_dir (fn m : String) (items : List RTree) :
    subtreeHasVideo (.dir fn (some m) (some items)) = listHasVideo items := by
  rw [subtreeHasVideo.eq_def]

theorem listHasVideo_cons (it : RTree) (rest : List RTree) :
    listHasVideo (it :: rest) = (subtreeHasVideo it || listHasVideo rest) := by
  rw [listHasVideo.eq_def]

theorem cacheSkip_force (cfg : Config) (hforce : cfg.force = true)
    (fc : List (String × Int × String)) (rd lm : String) :
    cacheSkip cfg fc rd lm = false := by
  simp [cacheSkip, hforce]

theorem walker_scan_aux (cfg : Config) (hforce : cfg.force = true) : ∀ n : Nat,
    (∀ fn (stR : Option String) (l : Option (List RTree)),
      sizeOf (RTree.dir fn stR l) ≤ n → allAccessible (.dir fn stR l) = true →
      ∀ s : WState,
        (processFolder cfg (.dir fn stR l) s).1 = subtreeHasVideo (.dir fn stR l)) ∧
    (∀ items : List RTree, sizeOf items ≤ n → allAccessibleL items = true →
      ∀ s : WState, (classifyItems cfg items s).1 = listHasVideo items) := by
  intro n
  induction n using Nat.strong_induction_on with
  | _ n ih =>
    constructor
    · intro fn stR l hsz hacc s
      match stR, l with
      | none, l => rw [allAccessible_stat_fail] at hacc; cases hacc
      | some m, none => rw [allAccessible_listing_fail] at hacc; cases hacc
      | some m, some items =>
          rw [allAccessible_scan] at hacc
          have hszi : sizeOf items < n := by
            have : sizeOf items < sizeOf (RTree.dir fn (some m) (some items)) := by
              simp
              try omega
            omega
          have hskip := cacheSkip_force cfg hforce s.folderCache (relDirOf cfg fn) m
          rcases hc : classifyItems cfg items
              { s with trace := s.trace ++ [.statCall (relDirOf cfg fn),
                                            .listCall (relDirOf cfg fn)] } with ⟨b, vids, s3⟩
          rw [processFolder_scan cfg fn m items s hskip _ hc]
          have hQ := (ih _ hszi).2 items le_rfl hacc
            { s with trace := s.trace ++ [.statCall (relDirOf cfg fn),
                                          .listCall (relDirOf cfg fn)] }
          rw [hc] at hQ
          rw [subtreeHasVideo_dir]
          exact hQ
    · intro items hsz hacc s
      match items with
      | [] =>
          rw [classifyItems_nil, listHasVideo.eq_def]
      | .dir fn stR l :: rest =>
          rw [allAccessibleL_cons, Bool.and_eq_true] at hacc
          have hsz1 : sizeOf (RTree.dir fn stR l) < n := by
            have : sizeOf (RTree.dir fn stR l) < sizeOf (RTree.dir fn stR l :: rest) := by
              simp
              try omega
            omega
          have hsz2 : sizeOf rest < n := by
            have : sizeOf rest < sizeOf (RTree.dir fn stR l :: rest) := by
              simp
              try omega
            omega
          have hP := (ih _ hsz1).1 fn stR l le_rfl hacc.1 s
          have hQ := (ih _ hsz2).2 rest le_rfl hacc.2 (processFolder cfg (.dir fn stR l) s).2
          rw [classifyItems_dir, listHasVideo_cons]
          simp only []
          rw [hP, hQ]
      | .file fn sz :: rest =>
          rw [allAccessibleL_cons, Bool.and_eq_true] at hacc
          have hsz2 : sizeOf rest < n := by
            have : sizeOf rest < sizeOf (RTree.file fn sz :: rest) := by
              simp
              try omega
            omega
          have hQ := (ih _ hsz2).2 rest le_rfl hacc.2
          rw [listHasVideo_cons, subtreeHasVideo.eq_def]
          by_cases hvid : isVideoFile fn = true
          · by_cases hcache : (!cfg.force
                && (s.thumbCache.contains (getRelativePath cfg.davPrefix fn)
                    || s.failCache.contains (getRelativePath cfg.davPrefix fn))) = true
            · rw [classifyItems_video_cached cfg fn sz rest s hvid hcache]
              simp [hvid]
            · rw [Bool.not_eq_true] at hcache
              rw [classifyItems_video_new cfg fn sz rest s hvid hcache]
              simp [hvid]
          · rw [Bool.not_eq_true] at hvid
            rw [classifyItems_other cfg fn sz rest s hvid]
            simp [hvid]
            exact hQ s

/-- C9, amended.  When no skip or abort path intervenes — force mode is on
(so the folder-cache gate is bypassed) and every stat and listing call in
the subtree succeeds — `processFolder` returns `true` iff the directory or
some descendant contains a file with a recognized video extension.  Without
these provisos the equivalence fails: see the counterexample, where a
cache-hit directory containing a video returns `false`. -/
theorem scan_true_iff_subtree_video (cfg : Config) (hforce : cfg.force = true)
    (fn : String) (stR : Option String) (l : Option (List RTree)) (s : WState)
    (hacc : allAccessible (.dir fn stR l) = true) :
    (processFolder cfg (.dir fn stR l) s).1 = subtreeHasVideo (.dir fn stR l) :=
  (walker_scan_aux cfg hforce (sizeOf (RTree.dir fn stR l))).1 fn stR l le_rfl hacc s

/-- Witness for C9 at a concrete accessible one-video tree under force
mode. -/
theorem scan_true_iff_subtree_video_witness :
    (processFolder wCfgForce
        (.dir "/V" (some "M") (some [.file "/V/a.mp4" 7])) emptyW).1
      = subtreeHasVideo (.dir "/V" (some "M") (some [.file "/V/a.mp4" 7])) :=
  scan_true_iff_subtree_video wCfgForce (by rfl) "/V" (some "M")
    (some [.file "/V/a.mp4" 7]) emptyW
    (by rw [allAccessible_scan, allAccessibleL_cons, allAccessibleL.eq_def]
        rfl)

/-- C9, counterexample.  A directory whose subtree contains `a.mp4` but
whose cache entry matches the fresh mtime inside the cooldown window makes
`processFolder` return `false`, refuting the unconditional "returns true iff
the subtree contains a video". -/
theorem scan_cache_hit_hides_video_counterexample :
    subtreeHasVideo (.dir "/Videos" (some "M1") (some [.file "/Videos/a.mp4" 10])) = true ∧
    (processFolder wCfgNB
        (.dir "/Videos" (some "M1") (some [.file "/Videos/a.mp4" 10])) wStateC).1 = false := by
  constructor
  · rw [subtreeHasVideo_dir, listHasVideo_cons, subtreeHasVideo.eq_def, listHasVideo.eq_def]
    simp
    decide
  · rw [processFolder_skip wCfgNB "/Videos" "M1" _ wStateC (by decide)]


/-- C2.  With force mode off, if the folder cache holds an entry for the
directory whose stored mtime equals the freshly fetched `lastmod` and whose
last-scan timestamp is within the cooldown window of `now`, then
`processFolder` returns `false` immediately, the only effect is the stat
call, and no directory-listing call for that directory is added to the
trace. -/
theorem cache_hit_skips_listing (cfg : Config) (fn lastmod : String)
    (listing : Option (List RTree)) (s : WState) (ts : Int)
    (hforce : cfg.force = false)
    (hcache : lookupFC s.folderCache (relDirOf cfg fn) = some (ts, lastmod))
    (hcool : cfg.now - ts < cfg.cooldownMs) :
    processFolder cfg (.dir fn (some lastmod) listing) s
      = (false, { s with trace := s.trace ++ [.statCall (relDirOf cfg fn)] }) ∧
    countListCalls (relDirOf cfg fn)
        (processFolder cfg (.dir fn (some lastmod) listing) s).2.trace
      = countListCalls (relDirOf cfg fn) s.trace := by
  have hskip : cacheSkip cfg s.folderCache (relDirOf cfg fn) lastmod = true := by
    simp [cacheSkip, hforce, hcache, hcool]
  have h1 : processFolder cfg (.dir fn (some lastmod) listing) s
      = (false, { s with trace := s.trace ++ [.statCall (relDirOf cfg fn)] }) :=
    processFolder_skip cfg fn lastmod listing s hskip
  refine ⟨h1, ?_⟩
  rw [h1]
  simp [countListCalls, List.countP_append]

/-- Witness for C2 at a concrete matching cache entry within cooldown. -/
theorem cache_hit_skips_listing_witness :
    processFolder wCfgNB (.dir "/Videos" (some "M1") (some [.file "/Videos/a.mp4" 10])) wStateC
      = (false, { wStateC with
                  trace := wStateC.trace ++ [.statCall (relDirOf wCfgNB "/Videos")] }) ∧
    countListCalls (relDirOf wCfgNB "/Videos")
        (processFolder wCfgNB
          (.dir "/Videos" (some "M1") (some [.file "/Videos/a.mp4" 10])) wStateC).2.trace
      = countListCalls (relDirOf wCfgNB "/Videos") wStateC.trace :=
  cache_hit_skips_listing wCfgNB "/Videos" "M1" (some [.file "/Videos/a.mp4" 10]) wStateC 0
    (by rfl) (by decide) (by decide)

/-- C5.  A stat failure returns `false` with no state change beyond the stat
trace event (in particular the folder cache is untouched); a listing failure
(stat succeeded, no cache skip) likewise returns `false` leaving only the
stat and listing trace events; and a failing subdirectory leaves the
processing of its siblings exactly as if the walker continued from the
post-failure state — sibling and parent processing is unaffected. -/
theorem subtree_abort_no_cache_write (cfg : Config) (fn : String) (s : WState) :
    (∀ listing, processFolder cfg (.dir fn none listing) s
       = (false, { s with trace := s.trace ++ [.statCall (relDirOf cfg fn)] })) ∧
    (∀ lastmod, cacheSkip cfg s.folderCache (relDirOf cfg fn) lastmod = false →
       processFolder cfg (.dir fn (some lastmod) none) s
         = (false, { s with trace := s.trace ++ [.statCall (relDirOf cfg fn),
                                                 .listCall (relDirOf cfg fn)] })) ∧
    (∀ listing rest, classifyItems cfg (.dir fn none listing :: rest) s
       = classifyItems cfg rest { s with trace := s.trace ++ [.statCall (relDirOf cfg fn)] }) := by
  have habort : ∀ listing, processFolder cfg (.dir fn none listing) s
      = (false, { s with trace := s.trace ++ [.statCall (relDirOf cfg fn)] }) := fun listing =>
    processFolder_statFail cfg fn listing s
  refine ⟨habort, ?_, ?_⟩
  · intro lastmod hskip
    exact processFolder_listFail cfg fn lastmod s hskip
  · intro listing rest
    rw [classifyItems_dir]
    simp only [habort, Bool.false_or, Prod.mk.eta]

/-- Witness for C5: a stat-failing directory, a listing-failing directory,
and a failing subdirectory followed by a sibling file. -/
theorem subtree_abort_no_cache_write_witness :
    (processFolder wCfgNB (.dir "/D" none (some [])) emptyW
       = (false, { emptyW with trace := emptyW.trace ++ [.statCall (relDirOf wCfgNB "/D")] })) ∧
    (processFolder wCfgNB (.dir "/D" (some "M") none) emptyW
       = (false, { emptyW with trace := emptyW.trace ++ [.statCall (relDirOf wCfgNB "/D"),
                                                         .listCall (relDirOf wCfgNB "/D")] })) ∧
    (classifyItems wCfgNB (.dir "/D" none (some []) :: [.file "/b.mp4" 3]) emptyW
       = classifyItems wCfgNB [.file "/b.mp4" 3]
           { emptyW with trace := emptyW.trace ++ [.statCall (relDirOf wCfgNB "/D")] }) :=
  ⟨(subtree_abort_no_cache_write wCfgNB "/D" emptyW).1 (some []),
   (subtree_abort_no_cache_write wCfgNB "/D" emptyW).2.1 "M" (by decide),
   (subtree_abort_no_cache_write wCfgNB "/D" emptyW).2.2 (some []) [.file "/b.mp4" 3]⟩

end Thumbnailer
